import Mathlib

/-!
Verification of the task-reminder core of `my-task-app`.

This file gives a shallow embedding of the repository's status-reconciliation
engine (`src/utils/taskUtils.ts`), its notification scheduler
(`src/utils/taskManagerUtils.ts` and the superseded revision kept in
`src/unnamed/part_003`), and its notification-history store
(`src/utils/notificationUtils.ts` and the revision kept in
`src/unnamed/part_002`), together with theorems settling the frozen claims
about those modules.

Modelling conventions:
- JavaScript strings stay `String`; the weekday entries of `repeatDay`,
  which the source duck-types between day-name strings and 1-7 numbers,
  become the sum type `DayVal`.
- `taskTime` is stored as an ISO string of which only the hour and minute
  in the fixed display timezone are significant; it is modelled as
  `Option TimeOfDay`, with `none` standing for the empty string
  (the `!task.taskTime` check in the source).
- ISO timestamps such as `created_at` and `updated_at` are modelled as the
  civil datetime `DateTime` they denote in the display timezone.
- Asynchronous storage I/O is modelled by explicit state passing: a
  function that reads and rewrites a persisted collection takes the
  collection and returns the new one, plus a flag or trace where a claim
  is about the writes performed.
-/

namespace TaskApp

/-- A civil time of day (only hour and minute are significant in the app). -/
structure TimeOfDay where
  hour : Nat
  minute : Nat
deriving DecidableEq, Repr

/-- A civil datetime in the fixed display timezone (Asia/Manila). -/
structure DateTime where
  year : Nat
  month : Nat
  day : Nat
  hour : Nat
  minute : Nat
deriving DecidableEq, Repr

/-- One entry of a task's `repeatDay` array.  The source duck-types these:
an entry is either a weekday name string (possibly a numeric string) or a
1-7 number with 1 = Sunday. -/
inductive DayVal where
  | name (s : String)
  | num (n : Nat)
deriving DecidableEq, Repr

/-- The `Task` record of `src/utils/taskUtils.ts`. -/
structure Task where
  taskId : String
  taskName : String
  taskStatus : String
  taskTime : Option TimeOfDay
  repeatDay : List DayVal
  created_at : Option DateTime
  updated_at : Option DateTime
deriving DecidableEq, Repr

instance : Inhabited Task :=
  ⟨⟨"", "", "", none, [], none, none⟩⟩

/-- The current wall-clock instant, already converted to the display
timezone: the civil datetime plus the weekday number
(`getDay() + 1`, 1-7 with 1 = Sunday). -/
structure ZonedNow where
  dt : DateTime
  weekdayNumber : Nat
deriving DecidableEq, Repr

/-- `dayNameToNumber` from `src/utils/taskUtils.ts` (0 for unknown names,
matching the `|| 0` default). -/
def dayNameToNumber (dayName : String) : Nat :=
  if dayName = "Sunday" then 1
  else if dayName = "Monday" then 2
  else if dayName = "Tuesday" then 3
  else if dayName = "Wednesday" then 4
  else if dayName = "Thursday" then 5
  else if dayName = "Friday" then 6
  else if dayName = "Saturday" then 7
  else 0

/-- `dayNumberToName` from `src/utils/taskUtils.ts` (empty string for
out-of-range numbers, matching the `|| ""` default). -/
def dayNumberToName (dayNumber : Nat) : String :=
  if dayNumber = 1 then "Sunday"
  else if dayNumber = 2 then "Monday"
  else if dayNumber = 3 then "Tuesday"
  else if dayNumber = 4 then "Wednesday"
  else if dayNumber = 5 then "Thursday"
  else if dayNumber = 6 then "Friday"
  else if dayNumber = 7 then "Saturday"
  else ""

/-- The `isToday` check inside `updateTaskStatuses`
(`src/utils/taskUtils.ts`): a `repeatDay` entry matches today when it is
the weekday name string, the weekday number as a decimal string, or the
weekday number itself. -/
def dayMatchesToday (now : ZonedNow) (d : DayVal) : Bool :=
  match d with
  | .name s => s == dayNumberToName now.weekdayNumber || s == toString now.weekdayNumber
  | .num n => n == now.weekdayNumber

/-- Whether a task is scheduled for today: some `repeatDay` entry matches
today (the `taskDaysRaw.some(...)` check in `updateTaskStatuses`). -/
def isScheduledToday (now : ZonedNow) (task : Task) : Bool :=
  task.repeatDay.any (dayMatchesToday now)

/-- The per-task body of the `tasks.map` inside `updateTaskStatuses`
(`src/utils/taskUtils.ts`): completed tasks are skipped; a missing
`taskTime` or a day not in `repeatDay` forces `INCOMPLETE`; otherwise the
task becomes `OVERDUE` once the current minute-of-day has passed the
task's minute-of-day by at least the 3-minute grace period.  The
`isStarted` window is computed as in the source (there `nowTotalMinutes >=
taskTotalMinutes - 15`, written here with the subtraction moved to the
other side, which is equivalent over the integers since `nowTotalMinutes`
is non-negative); both its branches yield `INCOMPLETE`. -/
def reconcileTask (now : ZonedNow) (task : Task) : Task :=
  if task.taskStatus = "COMPLETE" then task
  else
    match task.taskTime with
    | none => { task with taskStatus := "INCOMPLETE" }
    | some tt =>
      if ¬ isScheduledToday now task then { task with taskStatus := "INCOMPLETE" }
      else
        let taskTotalMinutes := tt.hour * 60 + tt.minute
        let nowTotalMinutes := now.dt.hour * 60 + now.dt.minute
        let isStarted : Bool :=
          decide (taskTotalMinutes ≤ nowTotalMinutes + 15) && decide (nowTotalMinutes < taskTotalMinutes)
        let isOverdue : Bool := decide (nowTotalMinutes ≥ taskTotalMinutes + 3)
        let newStatus := if isOverdue then "OVERDUE" else if isStarted then "INCOMPLETE" else "INCOMPLETE"
        { task with taskStatus := newStatus }

/-- Specification-side restatement of the status `reconcileTask` computes
for a task that is not `COMPLETE`: `INCOMPLETE` unless the task is
scheduled today and its minute-of-day has passed by at least the 3-minute
grace period, in which case `OVERDUE`.  Used to characterize
`reconcileTask` in the proofs. -/
def targetStatus (now : ZonedNow) (task : Task) : String :=
  match task.taskTime with
  | none => "INCOMPLETE"
  | some tt =>
    if isScheduledToday now task then
      if tt.hour * 60 + tt.minute + 3 ≤ now.dt.hour * 60 + now.dt.minute then "OVERDUE"
      else "INCOMPLETE"
    else "INCOMPLETE"

/-- `updateTaskStatuses` from `src/utils/taskUtils.ts`, with the
AsyncStorage round trip made explicit: it maps every loaded task through
the status computation and calls `saveTasks` (the returned `Bool`) only
when at least one task's computed status differs from its stored status
(`changeCount > 0` in the source). -/
def updateTaskStatuses (now : ZonedNow) (tasks : List Task) : List Task × Bool :=
  let updatedTasks := tasks.map (reconcileTask now)
  let changed := (tasks.zip updatedTasks).any (fun p => p.1.taskStatus != p.2.taskStatus)
  (updatedTasks, changed)

/-! ### Task store (`src/utils/taskUtils.ts`): load/save, add, update -/

/-- The status normalization applied by `loadTasks` to records already in
the new format: lowercase legacy spellings are folded into the three
canonical values, everything else is kept as is. -/
def normalizeStatus (s : String) : String :=
  if s = "incomplete" ∨ s = "pending" ∨ s = "started" then "INCOMPLETE"
  else if s = "complete" ∨ s = "completed" then "COMPLETE"
  else if s = "overdue" then "OVERDUE"
  else s

/-- A record as persisted under the `tasks` key.  `legacy` is the old flat
schema (`id`/`task`/`status`/`time`/`days`, detected by `task.id && !task.taskId`),
with `days` holding the already-JSON-parsed array (absent or non-array
`days` is the empty list) and `none` standing for an absent or empty field.
`current` is the new schema; the `task.status` fallback for hybrid records
that carry both field sets is not modelled, since every record this code
writes carries `taskStatus`. -/
inductive RawTask where
  | legacy (id : String) (task : String) (status : Option String) (time : Option TimeOfDay)
      (days : List DayVal) (created_at : Option DateTime) (updated_at : Option DateTime)
  | current (t : Task)
deriving DecidableEq, Repr

/-- The legacy-day conversion inside `loadTasks`: numeric entries become
day names, string entries are kept. -/
def migrateLegacyDay (d : DayVal) : DayVal :=
  match d with
  | .num n => .name (dayNumberToName n)
  | .name s => .name s

/-- The per-record body of the `tasks.map` inside `loadTasks`
(`src/utils/taskUtils.ts`): legacy records are converted to the new format
(with `task.status || INCOMPLETE`, so an absent or empty status defaults
but a lowercase one is NOT normalized), and new-format records get their
status normalized. -/
def migrateTask (r : RawTask) : Task :=
  match r with
  | .legacy id task status time days c u =>
    { taskId := id, taskName := task,
      taskStatus := match status with
        | none => "INCOMPLETE"
        | some s => if s = "" then "INCOMPLETE" else s,
      taskTime := time,
      repeatDay := days.map migrateLegacyDay,
      created_at := c, updated_at := u }
  | .current t => { t with taskStatus := normalizeStatus t.taskStatus }

/-- `loadTasks` from `src/utils/taskUtils.ts`. -/
def loadTasks (store : List RawTask) : List Task :=
  store.map migrateTask

/-- `saveTasks` from `src/utils/taskUtils.ts`: the list is serialized as
new-format records. -/
def saveTasks (tasks : List Task) : List RawTask :=
  tasks.map .current

/-- The argument of `addTask`: a task without `taskId` and timestamps
(`Omit<Task, "taskId" | "created_at" | "updated_at">`). -/
structure TaskInput where
  taskName : String
  taskStatus : String
  taskTime : Option TimeOfDay
  repeatDay : List DayVal
deriving DecidableEq, Repr

/-- `addTask` from `src/utils/taskUtils.ts`, with the id generation
(`Date.now().toString()`) and the current instant passed in explicitly:
it loads the store, appends the new record with generated id and
timestamps, saves, and returns the updated list.  Result: (new store
contents, returned task list). -/
def addTask (p : TaskInput) (newId : String) (now : DateTime) (store : List RawTask) :
    List RawTask × List Task :=
  let newTask : Task :=
    { taskId := newId, taskName := p.taskName, taskStatus := p.taskStatus,
      taskTime := p.taskTime, repeatDay := p.repeatDay,
      created_at := some now, updated_at := some now }
  let tasks := loadTasks store
  let updatedTasks := tasks ++ [newTask]
  (saveTasks updatedTasks, updatedTasks)

/-- A partial update as passed to `updateTask` (`Partial<Task>`); `none`
means the field is absent from the patch.  `created_at` never appears in
the source's call sites and is omitted. -/
structure TaskPatch where
  taskId : Option String := none
  taskName : Option String := none
  taskStatus : Option String := none
  taskTime : Option (Option TimeOfDay) := none
  repeatDay : Option (List DayVal) := none
  updated_at : Option (Option DateTime) := none
deriving Repr

/-- The merge inside `updateTask`: `{...task, ...updates, updated_at: now}` —
patch fields override, and `updated_at` is always refreshed to now
(overriding even a patch-supplied value). -/
def applyPatch (t : Task) (p : TaskPatch) (now : DateTime) : Task :=
  { taskId := p.taskId.getD t.taskId,
    taskName := p.taskName.getD t.taskName,
    taskStatus := p.taskStatus.getD t.taskStatus,
    taskTime := p.taskTime.getD t.taskTime,
    repeatDay := p.repeatDay.getD t.repeatDay,
    created_at := t.created_at,
    updated_at := some now }

/-- `updateTask` from `src/utils/taskUtils.ts`: the source finds the first
index with the given id and splices the merged record in (returning the
list unchanged when the id is absent); that equals patching the first
match. -/
def updateTask (taskId : String) (p : TaskPatch) (now : DateTime) : List Task → List Task
  | [] => []
  | t :: ts =>
    if t.taskId = taskId then applyPatch t p now :: ts
    else t :: updateTask taskId p now ts

/-- `checkAndResetCompletedTask` from `src/utils/taskUtils.ts`: for the
first task with the given id, when it is `COMPLETE`, its `repeatDay`
contains today's weekday NAME (`taskDays.includes(today)`, a strict
equality check against the name string only), and the day-of-month of its
`updated_at` (`getDate()`) differs from today's day-of-month (an absent
`updated_at` parses to `NaN`, which differs from everything), reset it to
`INCOMPLETE` with a refreshed `updated_at` and return `true`; otherwise
return `false` and leave the list unchanged.  Result: (whether a reset
occurred, resulting task list). -/
def checkAndResetCompletedTask (taskId : String) (now : ZonedNow) (tasks : List Task) :
    Bool × List Task :=
  match tasks.find? (fun t => t.taskId == taskId) with
  | none => (false, tasks)
  | some task =>
    if task.taskStatus ≠ "COMPLETE" then (false, tasks)
    else
      let today := dayNumberToName now.weekdayNumber
      if ¬ (DayVal.name today ∈ task.repeatDay) then (false, tasks)
      else
        let dayDiffers : Bool := match task.updated_at with
          | some d => d.day != now.dt.day
          | none => true
        if dayDiffers then
          (true, updateTask taskId
            { taskStatus := some "INCOMPLETE", updated_at := some (some now.dt) } now.dt tasks)
        else (false, tasks)

/-! ### Notification scheduler (`src/utils/taskManagerUtils.ts`) -/

/-- The alert kinds; the `data.type` strings `task_upcoming` /
`task_start` / `task_overdue` of the source correspond one-to-one. -/
inductive AlertKind where
  | upcoming
  | start
  | overdue
deriving DecidableEq, Repr

/-- A platform trigger: either a recurring weekly trigger
(`SchedulableTriggerInputTypes.WEEKLY`, weekday 1-7 with 1 = Sunday) or a
one-shot timer (`TIME_INTERVAL`, used only by the earliest superseded
revision). -/
inductive TriggerSpec where
  | weekly (weekday hour minute : Nat)
  | timeInterval (seconds : Nat)
deriving DecidableEq, Repr

/-- Whether a trigger is a recurring weekly trigger. -/
def TriggerSpec.isWeekly : TriggerSpec → Bool
  | .weekly _ _ _ => true
  | .timeInterval _ => false

/-- The weekday of a weekly trigger. -/
def TriggerSpec.weeklyWeekday : TriggerSpec → Option Nat
  | .weekly w _ _ => some w
  | .timeInterval _ => none

/-- One `Notifications.scheduleNotificationAsync` registration: the
payload's `taskId` and `type`, and the trigger.  The rendered title/body
text and the pre-generated payload id are not modelled. -/
structure ScheduledAlert where
  taskId : String
  kind : AlertKind
  trigger : TriggerSpec
deriving DecidableEq, Repr

/-- Leading-digits integer parse, modelling the JavaScript
`parseInt(day)` / `!isNaN(parseInt(day))` test on `repeatDay` entries
(`none` for `NaN`; signs and leading whitespace are not modelled, as the
app only stores day names or plain decimal strings). -/
def parseIntLeadingDigits (s : String) : Option Nat :=
  let ds := s.data.takeWhile (fun c => c.isDigit)
  if ds.isEmpty then none
  else some (ds.foldl (fun acc c => acc * 10 + (c.toNat - 48)) 0)

/-- The `taskDays` conversion in `scheduleAllNotificationTasks`
(`src/utils/taskManagerUtils.ts`): numeric strings are parsed, other
strings go through `dayNameToNumber`, numbers pass through. -/
def mapRepeatDayEntry (d : DayVal) : Nat :=
  match d with
  | .num n => n
  | .name s =>
    match parseIntLeadingDigits s with
    | some n => n
    | none => dayNameToNumber s

/-- The `for (const dayNumber of taskDays)` loop of
`scheduleAllNotificationTasks` (`src/utils/taskManagerUtils.ts`,
lines 403-499): per weekday it registers an upcoming alert
(`hour > 0 ? hour : 23`, `minute > 3 ? minute - 3 : minute + 57`), a start
alert at the task time, and an overdue alert 3 minutes after with carry
into the hour modulo 24 — all as weekly triggers on that weekday. -/
def scheduleDayLoop (taskId : String) (hour minute : Nat) : List Nat → List ScheduledAlert
  | [] => []
  | weekday :: rest =>
    ⟨taskId, .upcoming, .weekly weekday
        (if 0 < hour then hour else 23)
        (if 3 < minute then minute - 3 else minute + 57)⟩ ::
    ⟨taskId, .start, .weekly weekday hour minute⟩ ::
    ⟨taskId, .overdue, .weekly weekday
        ((hour + (minute + 3) / 60) % 24)
        ((minute + 3) % 60)⟩ ::
    scheduleDayLoop taskId hour minute rest

/-- `scheduleAllNotificationTasks` from `src/utils/taskManagerUtils.ts`
(the revision at lines 350-502).  The function first cancels the task's
previous alerts and clears its delivery-tracking state; the returned list
is the trace of the platform registrations it then performs.  It has no
completed-task check.  `none` models a missing `taskTime`, on which the
source's `parseISO` yields an invalid date. -/
def scheduleAllNotificationTasks (task : Task) : Option (List ScheduledAlert) :=
  task.taskTime.map (fun tt =>
    scheduleDayLoop task.taskId tt.hour tt.minute (task.repeatDay.map mapRepeatDayEntry))

namespace Part003

/-! The superseded scheduler revision kept in `src/unnamed/part_003`
(its second `scheduleAllNotificationTasks`, lines 309-514): it skips
completed tasks, converts `repeatDay` entries through `dayNameToNumber`
only, and registers the three weekly alerts per valid weekday through
`scheduleTaskNotification` with minute offsets -15 / 0 / +15. -/

/-- The offset arithmetic of `scheduleTaskNotification`
(`src/unnamed/part_003`, lines 389-411), over JavaScript numbers modelled
as `Int` with truncated `%`: minute overflow carries into the hour,
underflow borrows (`Math.ceil(|m|/60)` hours, `60 + m % 60` minutes), and
the hour then wraps modulo 24 in both directions.  The weekday is never
adjusted, as the source's own comment notes. -/
def adjustTime (hours minutes : Nat) (minuteOffset : Int) : Int × Int :=
  let aM0 : Int := (minutes : Int) + minuteOffset
  let p : Int × Int :=
    if 60 ≤ aM0 then ((hours : Int) + aM0 / 60, aM0.tmod 60)
    else if aM0 < 0 then ((hours : Int) - ((aM0.natAbs + 59) / 60 : Nat), 60 + aM0.tmod 60)
    else ((hours : Int), aM0)
  let aH :=
    if 24 ≤ p.1 then p.1.tmod 24
    else if p.1 < 0 then 24 + p.1.tmod 24
    else p.1
  (aH, p.2)

/-- Per-task entry of the in-memory `scheduledNotifications` tracker:
platform handles keyed by weekday, per alert kind. -/
structure TaskTrack where
  upcoming : List (Nat × String)
  start : List (Nat × String)
  overdue : List (Nat × String)
deriving DecidableEq, Repr

/-- The in-memory `scheduledNotifications` tracking table, keyed by task id. -/
abbrev Tracker := List (String × TaskTrack)

/-- Assign a handle under a weekday key (JavaScript object assignment:
replace if present, else add). -/
def upsertHandle (weekday : Nat) (handle : String) (l : List (Nat × String)) :
    List (Nat × String) :=
  if l.any (fun p => p.1 == weekday) then
    l.map (fun p => if p.1 == weekday then (p.1, handle) else p)
  else l ++ [(weekday, handle)]

/-- Store a handle in a task's tracker entry under the given kind and weekday. -/
def TaskTrack.setHandle (kind : AlertKind) (weekday : Nat) (handle : String)
    (t : TaskTrack) : TaskTrack :=
  match kind with
  | .upcoming => { t with upcoming := upsertHandle weekday handle t.upcoming }
  | .start => { t with start := upsertHandle weekday handle t.start }
  | .overdue => { t with overdue := upsertHandle weekday handle t.overdue }

/-- Initialize a task's tracker entry if absent
(`if (!scheduledNotifications[task.taskId]) { ... = {upcoming:{},start:{},overdue:{}} }`). -/
def trackerInit (taskId : String) (tr : Tracker) : Tracker :=
  if tr.any (fun p => p.1 == taskId) then tr else tr ++ [(taskId, ⟨[], [], []⟩)]

/-- Store a handle in the tracker under an existing task entry. -/
def trackerSet (taskId : String) (kind : AlertKind) (weekday : Nat) (handle : String)
    (tr : Tracker) : Tracker :=
  tr.map (fun p => if p.1 == taskId then (p.1, p.2.setHandle kind weekday handle) else p)

/-- The scheduler's mutable state: the tracking table plus a counter from
which the platform-assigned notification handles are derived. -/
structure SchedulerState where
  tracker : Tracker
  nextHandle : Nat
deriving DecidableEq, Repr

/-- The observable outcome of one `scheduleAllNotificationTasks` call:
the platform registrations performed, the task ids passed to
`cancelTaskNotifications`, and the scheduler state afterwards. -/
structure SchedOutcome where
  registered : List ScheduledAlert
  cancelledTasks : List String
  state : SchedulerState
deriving DecidableEq, Repr

/-- `scheduleTaskNotification` from `src/unnamed/part_003`: adjust the
time by the minute offset, register a weekly trigger, and record the
returned platform handle in the tracker under the kind and weekday. -/
def scheduleTaskNotification (task : Task) (kind : AlertKind)
    (weekday hours minutes : Nat) (minuteOffset : Int) (st : SchedulerState) :
    ScheduledAlert × SchedulerState :=
  let adjusted := adjustTime hours minutes minuteOffset
  let alert : ScheduledAlert := ⟨task.taskId, kind, .weekly weekday adjusted.1.toNat adjusted.2.toNat⟩
  let handle := "handle-" ++ toString st.nextHandle
  (alert, ⟨trackerSet task.taskId kind weekday handle st.tracker, st.nextHandle + 1⟩)

/-- The `for (const dayName of task.repeatDay)` loop: entries are mapped
through `dayNameToNumber` (a non-string entry indexes the day map with a
number and falls to 0), weekday 0 is skipped, and each remaining weekday
gets the upcoming (-15), start (0) and overdue (+15) alerts. -/
def scheduleDaysLoop (task : Task) (tt : TimeOfDay) :
    List DayVal → SchedulerState → List ScheduledAlert × SchedulerState
  | [], st => ([], st)
  | d :: rest, st =>
    let weekday := match d with
      | .name s => dayNameToNumber s
      | .num _ => 0
    if weekday = 0 then scheduleDaysLoop task tt rest st
    else
      let r1 := scheduleTaskNotification task .upcoming weekday tt.hour tt.minute (-15) st
      let r2 := scheduleTaskNotification task .start weekday tt.hour tt.minute 0 r1.2
      let r3 := scheduleTaskNotification task .overdue weekday tt.hour tt.minute 15 r2.2
      let rest2 := scheduleDaysLoop task tt rest r3.2
      (r1.1 :: r2.1 :: r3.1 :: rest2.1, rest2.2)

/-- `scheduleAllNotificationTasks` from `src/unnamed/part_003`
(lines 309-375): a `COMPLETE` task is skipped entirely (log only);
otherwise the task's previous alerts are cancelled, its tracker entry is
initialized, and the per-day loop registers the alerts.  `none` models a
missing `taskTime` (the source would raise and hit its catch block after
the cancellation side effect). -/
def scheduleAllNotificationTasks (task : Task) (st : SchedulerState) : Option SchedOutcome :=
  if task.taskStatus = "COMPLETE" then some ⟨[], [], st⟩
  else
    match task.taskTime with
    | none => none
    | some tt =>
      let st1 : SchedulerState := ⟨trackerInit task.taskId st.tracker, st.nextHandle⟩
      let r := scheduleDaysLoop task tt task.repeatDay st1
      some ⟨r.1, [task.taskId], r.2⟩

end Part003

/-! ### Notification history (`src/utils/notificationUtils.ts`,
`src/unnamed/part_002`) -/

/-- The `NotificationRecord` of `src/utils/notificationUtils.ts`.  The
ISO `timestamp` string is modelled as the epoch milliseconds it denotes;
the source's lexicographic comparison of equal-format ISO strings agrees
with the numeric order. -/
structure NotificationRecord where
  id : String
  taskId : String
  title : String
  body : String
  type : AlertKind
  timestamp : Int
  read : Bool
deriving DecidableEq, Repr

/-- `saveNotificationToHistory` from `src/utils/notificationUtils.ts`
(lines 137-154): it unconditionally appends the record to the stored
history — this revision has no duplicate check. -/
def saveNotificationToHistory (n : NotificationRecord) (history : List NotificationRecord) :
    List NotificationRecord :=
  history ++ [n]

namespace Part002

/-- The duplicate test of `saveNotificationToHistory` in
`src/unnamed/part_002`: some stored record has the same `taskId` and
`type` and a timestamp strictly newer than five minutes before now
(`Date.now() - 5 * 60 * 1000`). -/
def isDuplicateOf (now : Int) (n : NotificationRecord) (history : List NotificationRecord) :
    Bool :=
  let fiveMinutesAgo := now - 5 * 60 * 1000
  history.any (fun e =>
    e.taskId == n.taskId && e.type == n.type && decide (fiveMinutesAgo < e.timestamp))

/-- `saveNotificationToHistory` from `src/unnamed/part_002`
(lines 155-184): the record is appended only when it is not a duplicate
of a recent record. -/
def saveNotificationToHistory (now : Int) (n : NotificationRecord)
    (history : List NotificationRecord) : List NotificationRecord :=
  if isDuplicateOf now n history then history else history ++ [n]

end Part002

/-- `markNotificationAsRead` from `src/utils/notificationUtils.ts`
(lines 172-192): map over the stored history, replacing a record whose
`id` matches with a copy whose `read` flag is `true`, and store the
result. -/
def markNotificationAsRead (notificationId : String) (history : List NotificationRecord) :
    List NotificationRecord :=
  history.map (fun n => if n.id = notificationId then { n with read := true } else n)

/-! ## Helper lemmas about the reconciler -/

theorem isScheduledToday_setStatus (now : ZonedNow) (t : Task) (s : String) :
    isScheduledToday now { t with taskStatus := s } = isScheduledToday now t := rfl

theorem targetStatus_setStatus (now : ZonedNow) (t : Task) (s : String) :
    targetStatus now { t with taskStatus := s } = targetStatus now t := rfl

theorem targetStatus_none (now : ZonedNow) (t : Task) (h : t.taskTime = none) :
    targetStatus now t = "INCOMPLETE" := by
  unfold targetStatus
  rw [h]

theorem targetStatus_some (now : ZonedNow) (t : Task) (tt : TimeOfDay)
    (h : t.taskTime = some tt) :
    targetStatus now t =
      if isScheduledToday now t then
        if tt.hour * 60 + tt.minute + 3 ≤ now.dt.hour * 60 + now.dt.minute then "OVERDUE"
        else "INCOMPLETE"
      else "INCOMPLETE" := by
  unfold targetStatus
  rw [h]

theorem targetStatus_ne_complete (now : ZonedNow) (t : Task) :
    targetStatus now t ≠ "COMPLETE" := by
  rcases htt : t.taskTime with _ | tt
  · rw [targetStatus_none now t htt]
    decide
  · rw [targetStatus_some now t tt htt]
    split
    · split <;> decide
    · decide

theorem reconcileTask_char (now : ZonedNow) (t : Task) :
    reconcileTask now t =
      if t.taskStatus = "COMPLETE" then t
      else { t with taskStatus := targetStatus now t } := by
  unfold reconcileTask targetStatus
  by_cases hc : t.taskStatus = "COMPLETE"
  · simp [hc]
  · simp only [hc, if_false]
    rcases t.taskTime with _ | tt
    · rfl
    · dsimp only
      by_cases hs : isScheduledToday now t
      · simp only [hs, not_true, if_false, if_true]
        by_cases hp : tt.hour * 60 + tt.minute + 3 ≤ now.dt.hour * 60 + now.dt.minute
        · simp [hp, ge_iff_le]
        · simp [hp, ge_iff_le]
      · simp [hs]

theorem reconcileTask_idem (now : ZonedNow) (t : Task) :
    reconcileTask now (reconcileTask now t) = reconcileTask now t := by
  by_cases hc : t.taskStatus = "COMPLETE"
  · have ht : reconcileTask now t = t := by rw [reconcileTask_char, if_pos hc]
    rw [ht]
    exact ht
  · simp [reconcileTask_char, hc, targetStatus_setStatus, targetStatus_ne_complete]

theorem updateTaskStatuses_fst (now : ZonedNow) (tasks : List Task) :
    (updateTaskStatuses now tasks).1 = tasks.map (reconcileTask now) := rfl

theorem updateTaskStatuses_length (now : ZonedNow) (tasks : List Task) :
    (updateTaskStatuses now tasks).1.length = tasks.length := by
  rw [updateTaskStatuses_fst, List.length_map]

theorem updateTaskStatuses_getElem (now : ZonedNow) (tasks : List Task) (i : Nat)
    (hi : i < tasks.length) (hi2 : i < (updateTaskStatuses now tasks).1.length) :
    (updateTaskStatuses now tasks).1[i] = reconcileTask now tasks[i] := by
  simp [updateTaskStatuses_fst]

/-! ## C1/C2/C3: the status reconciler -/

/-- C1 (amended): for every task NOT in `COMPLETE` whose `repeatDay`
contains today's weekday and whose `taskTime` minute-of-day is in the past
by at least the grace period (3 minutes in the source), `updateTaskStatuses`
sets that task's `taskStatus` to `OVERDUE`. -/
theorem updateTaskStatuses_sets_overdue (now : ZonedNow) (tasks : List Task) (i : Nat)
    (tt : TimeOfDay)
    (hi : i < tasks.length) (hi2 : i < (updateTaskStatuses now tasks).1.length)
    (hst : (tasks[i]).taskStatus ≠ "COMPLETE")
    (htt : (tasks[i]).taskTime = some tt)
    (hsched : isScheduledToday now (tasks[i]) = true)
    (hpast : tt.hour * 60 + tt.minute + 3 ≤ now.dt.hour * 60 + now.dt.minute) :
    ((updateTaskStatuses now tasks).1[i]).taskStatus = "OVERDUE" := by
  rw [updateTaskStatuses_getElem now tasks i hi hi2, reconcileTask_char, if_neg hst]
  show targetStatus now (tasks[i]) = "OVERDUE"
  unfold targetStatus
  rw [htt]
  simp [hsched, hpast]

/-- Witness for C1's theorem at a concrete input: a Monday 09:00 task,
not complete, reconciled on a Monday at 09:16. -/
theorem updateTaskStatuses_sets_overdue_witness :
    ((updateTaskStatuses ⟨⟨2025, 10, 13, 9, 16⟩, 2⟩
        [⟨"1", "Standup", "INCOMPLETE", some ⟨9, 0⟩, [.name "Monday"], none, none⟩]).1.get
      ⟨0, by decide⟩).taskStatus = "OVERDUE" :=
  updateTaskStatuses_sets_overdue ⟨⟨2025, 10, 13, 9, 16⟩, 2⟩
    [⟨"1", "Standup", "INCOMPLETE", some ⟨9, 0⟩, [.name "Monday"], none, none⟩] 0 ⟨9, 0⟩
    (by decide) (by decide) (by decide) rfl (by decide) (by decide)

/-- Counterexample to C1 as stated: a `COMPLETE` task scheduled today
whose time is past by more than the grace period is left `COMPLETE` by
`updateTaskStatuses`, not set to `OVERDUE` — the claim's universal
quantification over "every task" fails on completed tasks. -/
theorem updateTaskStatuses_complete_not_overdue :
    isScheduledToday ⟨⟨2025, 10, 13, 9, 16⟩, 2⟩
        ⟨"1", "Standup", "COMPLETE", some ⟨9, 0⟩, [.name "Monday"], none, none⟩ = true ∧
    9 * 60 + 0 + 3 ≤ 9 * 60 + 16 ∧
    (updateTaskStatuses ⟨⟨2025, 10, 13, 9, 16⟩, 2⟩
        [⟨"1", "Standup", "COMPLETE", some ⟨9, 0⟩, [.name "Monday"], none, none⟩]).1.map
      Task.taskStatus = ["COMPLETE"] := by
  refine ⟨by decide, by decide, ?_⟩
  decide

/-- C2: for every task whose `repeatDay` does not contain today's weekday,
`updateTaskStatuses` forces its `taskStatus` to `INCOMPLETE` regardless of
its previous value, except that a task already `COMPLETE` is left
untouched. -/
theorem updateTaskStatuses_notScheduled (now : ZonedNow) (tasks : List Task) (i : Nat)
    (hi : i < tasks.length) (hi2 : i < (updateTaskStatuses now tasks).1.length)
    (hsched : isScheduledToday now (tasks[i]) = false) :
    ((tasks[i]).taskStatus ≠ "COMPLETE" →
      ((updateTaskStatuses now tasks).1[i]).taskStatus = "INCOMPLETE") ∧
    ((tasks[i]).taskStatus = "COMPLETE" →
      (updateTaskStatuses now tasks).1[i] = tasks[i]) := by
  rw [updateTaskStatuses_getElem now tasks i hi hi2]
  constructor
  · intro hst
    rw [reconcileTask_char, if_neg hst]
    show targetStatus now (tasks[i]) = "INCOMPLETE"
    unfold targetStatus
    rcases htt : (tasks[i]).taskTime with _ | tt
    · rfl
    · simp [hsched]
  · intro hst
    rw [reconcileTask_char, if_pos hst]

/-- Witness for C2's theorem at a concrete input: an `OVERDUE` task
scheduled for Friday only, reconciled on a Monday, becomes `INCOMPLETE`. -/
theorem updateTaskStatuses_notScheduled_witness :
    ((updateTaskStatuses ⟨⟨2025, 10, 13, 9, 16⟩, 2⟩
        [⟨"1", "Standup", "OVERDUE", some ⟨9, 0⟩, [.name "Friday"], none, none⟩]).1.get
      ⟨0, by decide⟩).taskStatus = "INCOMPLETE" :=
  (updateTaskStatuses_notScheduled ⟨⟨2025, 10, 13, 9, 16⟩, 2⟩
    [⟨"1", "Standup", "OVERDUE", some ⟨9, 0⟩, [.name "Friday"], none, none⟩] 0
    (by decide) (by decide) (by decide)).1 (by decide)

/-- C3: the reconciler is idempotent in its writes — a second
`updateTaskStatuses` with the same `now`, run on the task list the first
call produced (which is also the stored list, whether or not the first
call saved), performs no persisted write: its save flag is `false`, since
it only saves when some computed status differs from the stored one. -/
theorem updateTaskStatuses_idempotent (now : ZonedNow) (tasks : List Task) :
    (updateTaskStatuses now (updateTaskStatuses now tasks).1).2 = false := by
  show ((tasks.map (reconcileTask now)).zip
      ((tasks.map (reconcileTask now)).map (reconcileTask now))).any
      (fun p => p.1.taskStatus != p.2.taskStatus) = false
  induction tasks with
  | nil => rfl
  | cons t ts ih =>
    simp only [List.map_cons, List.zip_cons_cons, List.any_cons, ih, Bool.or_false]
    rw [reconcileTask_idem]
    simp

/-! ## Helper lemmas about `updateTask` -/

theorem updateTask_length (tid : String) (p : TaskPatch) (now : DateTime) (ts : List Task) :
    (updateTask tid p now ts).length = ts.length := by
  induction ts with
  | nil => rfl
  | cons t ts ih =>
    by_cases h : t.taskId = tid
    · simp [updateTask, h]
    · simp [updateTask, h, ih]

theorem updateTask_getElem_ne (tid : String) (p : TaskPatch) (now : DateTime)
    (ts : List Task) (i : Nat) (hi : i < ts.length)
    (hi2 : i < (updateTask tid p now ts).length)
    (h : (ts[i]).taskId ≠ tid) :
    (updateTask tid p now ts)[i] = ts[i] := by
  induction ts generalizing i with
  | nil => exact absurd hi (by simp)
  | cons t ts ih =>
    by_cases ht : t.taskId = tid
    · cases i with
      | zero => exact absurd ht h
      | succ j => simp [updateTask, ht]
    · cases i with
      | zero => simp [updateTask, ht]
      | succ j =>
        have hj : j < ts.length := by simpa using hi
        have hj2 : j < (updateTask tid p now ts).length := by
          rw [updateTask_length]; exact hj
        have hne : (ts[j]).taskId ≠ tid := by simpa using h
        simp only [updateTask, if_neg ht, List.getElem_cons_succ]
        exact ih j hj hj2 hne

theorem updateTask_find (tid : String) (p : TaskPatch) (now : DateTime) (ts : List Task)
    (t : Task) (hp : p.taskId = none)
    (hf : ts.find? (fun x => x.taskId == tid) = some t) :
    (updateTask tid p now ts).find? (fun x => x.taskId == tid) = some (applyPatch t p now) := by
  induction ts with
  | nil => simp at hf
  | cons a ts ih =>
    by_cases ha : a.taskId = tid
    · have hta : t = a := by
        rw [List.find?_cons_of_pos _ (by simpa using ha)] at hf
        exact (Option.some_inj.mp hf).symm
      subst hta
      have hid : (applyPatch t p now).taskId = tid := by
        simp [applyPatch, hp, ha]
      simp only [updateTask, if_pos ha]
      rw [List.find?_cons_of_pos _ (by simpa using hid)]
    · have hf' : ts.find? (fun x => x.taskId == tid) = some t := by
        rwa [List.find?_cons_of_neg _ (by simpa using ha)] at hf
      simp only [updateTask, if_neg ha]
      rw [List.find?_cons_of_neg _ (by simpa using ha)]
      exact ih hf'

/-! ## C7: `checkAndResetCompletedTask` -/

theorem updateTask_getElemOpt_ne (tid : String) (p : TaskPatch) (now : DateTime)
    (ts : List Task) (i : Nat) (hi : i < ts.length)
    (h : (ts[i]).taskId ≠ tid) :
    (updateTask tid p now ts)[i]? = some (ts[i]) := by
  have hi2 : i < (updateTask tid p now ts).length := by
    rw [updateTask_length]; exact hi
  rw [List.getElem?_eq_getElem hi2, updateTask_getElem_ne tid p now ts i hi hi2 h]

/-- C7 (amended): `checkAndResetCompletedTask` returns `true` exactly when
the first task with the given id is `COMPLETE`, its `repeatDay` contains
today's weekday NAME (the string form; the source's `includes(today)`
compares against the name only), and the day-of-month of its stored
`updated_at` differs from today's day-of-month (not the full calendar
day); in that case the task's status is reset to `INCOMPLETE` with a
refreshed `updated_at` and all other records are unchanged, and in every
other case it returns `false` and leaves the list unchanged. -/
theorem checkAndResetCompletedTask_spec (tasks : List Task) (tid : String) (now : ZonedNow) :
    ((checkAndResetCompletedTask tid now tasks).1 = true ↔
      (∃ t, tasks.find? (fun x => x.taskId == tid) = some t ∧
        t.taskStatus = "COMPLETE" ∧
        DayVal.name (dayNumberToName now.weekdayNumber) ∈ t.repeatDay ∧
        (∀ d, t.updated_at = some d → d.day ≠ now.dt.day))) ∧
    ((checkAndResetCompletedTask tid now tasks).1 = false →
      (checkAndResetCompletedTask tid now tasks).2 = tasks) ∧
    ((checkAndResetCompletedTask tid now tasks).1 = true →
      (checkAndResetCompletedTask tid now tasks).2.length = tasks.length ∧
      (∀ i, ∀ hi : i < tasks.length,
        (tasks[i]).taskId ≠ tid →
        (checkAndResetCompletedTask tid now tasks).2[i]? = some (tasks[i])) ∧
      (∀ t, tasks.find? (fun x => x.taskId == tid) = some t →
        (checkAndResetCompletedTask tid now tasks).2.find? (fun x => x.taskId == tid) =
          some { t with taskStatus := "INCOMPLETE", updated_at := some now.dt })) := by
  rcases hf : tasks.find? (fun x => x.taskId == tid) with _ | t
  · simp [checkAndResetCompletedTask, hf]
  · have resetCase :
        checkAndResetCompletedTask tid now tasks =
          (true, updateTask tid
            { taskStatus := some "INCOMPLETE", updated_at := some (some now.dt) }
            now.dt tasks) →
        ((checkAndResetCompletedTask tid now tasks).1 = false →
          (checkAndResetCompletedTask tid now tasks).2 = tasks) ∧
        ((checkAndResetCompletedTask tid now tasks).1 = true →
          (checkAndResetCompletedTask tid now tasks).2.length = tasks.length ∧
          (∀ i, ∀ hi : i < tasks.length,
            (tasks[i]).taskId ≠ tid →
            (checkAndResetCompletedTask tid now tasks).2[i]? = some (tasks[i])) ∧
          (∀ t2, tasks.find? (fun x => x.taskId == tid) = some t2 →
            (checkAndResetCompletedTask tid now tasks).2.find? (fun x => x.taskId == tid) =
              some { t2 with taskStatus := "INCOMPLETE", updated_at := some now.dt })) := by
      intro hres
      constructor
      · intro hfalse
        rw [hres] at hfalse
        exact Bool.noConfusion hfalse
      · intro _
        refine ⟨by rw [hres]; exact updateTask_length _ _ _ _, ?_, ?_⟩
        · intro i hi hne
          rw [hres]
          exact updateTask_getElemOpt_ne _ _ _ _ i hi hne
        · intro t2 hf2
          rw [hf] at hf2
          obtain rfl : t = t2 := Option.some_inj.mp hf2
          rw [hres]
          exact updateTask_find _ _ _ _ _ rfl hf
    by_cases hst : t.taskStatus = "COMPLETE"
    · by_cases hmem : DayVal.name (dayNumberToName now.weekdayNumber) ∈ t.repeatDay
      · rcases hup : t.updated_at with _ | d
        · -- missing updated_at: parses to NaN, the day always differs, reset occurs
          have hres : checkAndResetCompletedTask tid now tasks =
              (true, updateTask tid
                { taskStatus := some "INCOMPLETE", updated_at := some (some now.dt) }
                now.dt tasks) := by
            simp [checkAndResetCompletedTask, hf, hst, hmem, hup]
          refine ⟨?_, resetCase hres⟩
          rw [hres]
          exact iff_of_true rfl
            ⟨t, hf, hst, hmem, fun d hd => Option.noConfusion (hup ▸ hd)⟩
        · by_cases hday : d.day = now.dt.day
          · -- completed on the same day-of-month: no reset
            have hres : checkAndResetCompletedTask tid now tasks = (false, tasks) := by
              simp [checkAndResetCompletedTask, hf, hst, hmem, hup, hday]
            have hnot : ¬ (∃ t2, tasks.find? (fun x => x.taskId == tid) = some t2 ∧
                t2.taskStatus = "COMPLETE" ∧
                DayVal.name (dayNumberToName now.weekdayNumber) ∈ t2.repeatDay ∧
                (∀ d2, t2.updated_at = some d2 → d2.day ≠ now.dt.day)) := by
              rintro ⟨t2, hf2, -, -, hd2⟩
              rw [hf] at hf2
              obtain rfl : t = t2 := Option.some_inj.mp hf2
              exact hd2 d hup hday
            refine ⟨iff_of_false (by rw [hres]; exact Bool.noConfusion) hnot,
              fun _ => by rw [hres],
              fun htrue => absurd htrue (by rw [hres]; exact Bool.noConfusion)⟩
          · have hres : checkAndResetCompletedTask tid now tasks =
                (true, updateTask tid
                  { taskStatus := some "INCOMPLETE", updated_at := some (some now.dt) }
                  now.dt tasks) := by
              simp [checkAndResetCompletedTask, hf, hst, hmem, hup, hday]
            refine ⟨?_, resetCase hres⟩
            rw [hres]
            refine iff_of_true rfl ⟨t, hf, hst, hmem, fun d2 hd2 => ?_⟩
            obtain rfl : d = d2 := Option.some_inj.mp (hup ▸ hd2)
            exact hday
      · have hres : checkAndResetCompletedTask tid now tasks = (false, tasks) := by
          simp [checkAndResetCompletedTask, hf, hst, hmem]
        have hnot : ¬ (∃ t2, tasks.find? (fun x => x.taskId == tid) = some t2 ∧
            t2.taskStatus = "COMPLETE" ∧
            DayVal.name (dayNumberToName now.weekdayNumber) ∈ t2.repeatDay ∧
            (∀ d2, t2.updated_at = some d2 → d2.day ≠ now.dt.day)) := by
          rintro ⟨t2, hf2, -, hm2, -⟩
          rw [hf] at hf2
          obtain rfl : t = t2 := Option.some_inj.mp hf2
          exact hmem hm2
        refine ⟨iff_of_false (by rw [hres]; exact Bool.noConfusion) hnot,
          fun _ => by rw [hres],
          fun htrue => absurd htrue (by rw [hres]; exact Bool.noConfusion)⟩
    · have hres : checkAndResetCompletedTask tid now tasks = (false, tasks) := by
        simp [checkAndResetCompletedTask, hf, hst]
      have hnot : ¬ (∃ t2, tasks.find? (fun x => x.taskId == tid) = some t2 ∧
          t2.taskStatus = "COMPLETE" ∧
          DayVal.name (dayNumberToName now.weekdayNumber) ∈ t2.repeatDay ∧
          (∀ d2, t2.updated_at = some d2 → d2.day ≠ now.dt.day)) := by
        rintro ⟨t2, hf2, hs2, -, -⟩
        rw [hf] at hf2
        obtain rfl : t = t2 := Option.some_inj.mp hf2
        exact hst hs2
      refine ⟨iff_of_false (by rw [hres]; exact Bool.noConfusion) hnot,
        fun _ => by rw [hres],
        fun htrue => absurd htrue (by rw [hres]; exact Bool.noConfusion)⟩

/-- Witness for C7's theorem at a concrete input: a `COMPLETE` Monday task
completed on October 12 is reset on Monday October 13, and the stored
record becomes `INCOMPLETE` with a refreshed `updated_at`. -/
theorem checkAndResetCompletedTask_spec_witness :
    ((checkAndResetCompletedTask "1" ⟨⟨2025, 10, 13, 0, 1⟩, 2⟩
        [⟨"1", "Standup", "COMPLETE", some ⟨9, 0⟩, [.name "Monday"], none,
          some ⟨2025, 10, 12, 9, 5⟩⟩]).2.find? (fun x => x.taskId == "1")) =
      some ⟨"1", "Standup", "INCOMPLETE", some ⟨9, 0⟩, [.name "Monday"], none,
        some ⟨2025, 10, 13, 0, 1⟩⟩ :=
  ((checkAndResetCompletedTask_spec
      [⟨"1", "Standup", "COMPLETE", some ⟨9, 0⟩, [.name "Monday"], none,
        some ⟨2025, 10, 12, 9, 5⟩⟩] "1" ⟨⟨2025, 10, 13, 0, 1⟩, 2⟩).2.2
    (by decide)).2.2
    ⟨"1", "Standup", "COMPLETE", some ⟨9, 0⟩, [.name "Monday"], none,
      some ⟨2025, 10, 12, 9, 5⟩⟩ (by decide)

/-- Counterexample to C7 as stated: a `COMPLETE` Monday task whose
`updated_at` (January 5) falls on a DIFFERENT calendar day than now
(February 5) but on the SAME day-of-month is NOT reset —
`checkAndResetCompletedTask` compares `getDate()` values only, so it
returns `false` and leaves the task unchanged where the claim requires a
reset. -/
theorem checkAndResetCompletedTask_sameDayOfMonth :
    (⟨2025, 1, 5, 9, 5⟩ : DateTime) ≠ ⟨2025, 2, 5, 0, 1⟩ ∧
    checkAndResetCompletedTask "1" ⟨⟨2025, 2, 5, 0, 1⟩, 4⟩
        [⟨"1", "Standup", "COMPLETE", some ⟨9, 0⟩, [.name "Wednesday"], none,
          some ⟨2025, 1, 5, 9, 5⟩⟩] =
      (false,
        [⟨"1", "Standup", "COMPLETE", some ⟨9, 0⟩, [.name "Wednesday"], none,
          some ⟨2025, 1, 5, 9, 5⟩⟩]) := by
  exact ⟨by decide, by decide⟩

/-! ## C9: `addTask` / `loadTasks` round trip -/

/-- C9 (amended): when the partial task's `taskStatus` is a fixed point of
the legacy-status normalization (in particular any of the three canonical
values) and the statuses already loaded from the store are too, `addTask`
followed by `loadTasks` yields exactly the prior list plus one new record
equal to the partial task together with the generated `taskId` and
`created_at`/`updated_at` timestamps.  (Without those conditions the
second load re-normalizes statuses, so the new record can differ from the
partial task — see the counterexample.) -/
theorem addTask_loadTasks_roundtrip (store : List RawTask) (p : TaskInput)
    (newId : String) (now : DateTime)
    (hp : normalizeStatus p.taskStatus = p.taskStatus)
    (hstore : ∀ t ∈ loadTasks store, normalizeStatus t.taskStatus = t.taskStatus) :
    loadTasks (addTask p newId now store).1 =
      loadTasks store ++
        [{ taskId := newId, taskName := p.taskName, taskStatus := p.taskStatus,
           taskTime := p.taskTime, repeatDay := p.repeatDay,
           created_at := some now, updated_at := some now }] := by
  have hfix : ∀ t ∈ loadTasks store, migrateTask (.current t) = t := by
    intro t ht
    show ({ t with taskStatus := normalizeStatus t.taskStatus } : Task) = t
    rw [hstore t ht]
  show (saveTasks (loadTasks store ++ [_])).map migrateTask = _
  rw [saveTasks, List.map_append, List.map_append, List.map_map, List.map_map]
  congr 1
  · calc (loadTasks store).map (migrateTask ∘ RawTask.current)
        = (loadTasks store).map id := List.map_congr_left (fun t ht => hfix t ht)
      _ = loadTasks store := List.map_id _
  · show [migrateTask (.current _)] = _
    have : migrateTask (.current
        { taskId := newId, taskName := p.taskName, taskStatus := p.taskStatus,
          taskTime := p.taskTime, repeatDay := p.repeatDay,
          created_at := some now, updated_at := some now }) =
        { taskId := newId, taskName := p.taskName, taskStatus := p.taskStatus,
          taskTime := p.taskTime, repeatDay := p.repeatDay,
          created_at := some now, updated_at := some now } := by
      show ({ taskId := newId, taskName := p.taskName,
              taskStatus := normalizeStatus p.taskStatus, taskTime := p.taskTime,
              repeatDay := p.repeatDay, created_at := some now,
              updated_at := some now } : Task) = _
      rw [hp]
    rw [this]

/-- Witness for C9's theorem at a concrete input: a store holding one
legacy-format record (migrated on load) plus a canonical new task. -/
theorem addTask_loadTasks_roundtrip_witness :
    loadTasks (addTask ⟨"Standup", "INCOMPLETE", some ⟨9, 0⟩, [.name "Monday"]⟩ "42"
        ⟨2025, 10, 13, 9, 0⟩ [.legacy "9" "Old task" none none [.num 2] none none]).1 =
      loadTasks [.legacy "9" "Old task" none none [.num 2] none none] ++
        [{ taskId := "42", taskName := "Standup", taskStatus := "INCOMPLETE",
           taskTime := some ⟨9, 0⟩, repeatDay := [.name "Monday"],
           created_at := some ⟨2025, 10, 13, 9, 0⟩,
           updated_at := some ⟨2025, 10, 13, 9, 0⟩ }] :=
  addTask_loadTasks_roundtrip [.legacy "9" "Old task" none none [.num 2] none none]
    ⟨"Standup", "INCOMPLETE", some ⟨9, 0⟩, [.name "Monday"]⟩ "42" ⟨2025, 10, 13, 9, 0⟩
    (by decide) (by decide)

/-- Counterexample to C9 as stated: adding a partial task whose status is
the legacy spelling `"pending"` and loading back yields a record whose
`taskStatus` is `"INCOMPLETE"`, not one whose fields equal the partial
task's — `loadTasks` re-normalizes statuses on every load. -/
theorem addTask_loadTasks_not_verbatim :
    loadTasks (addTask ⟨"Standup", "pending", none, [.name "Monday"]⟩ "42"
        ⟨2025, 10, 13, 9, 0⟩ []).1 ≠
      loadTasks [] ++
        [{ taskId := "42", taskName := "Standup", taskStatus := "pending",
           taskTime := none, repeatDay := [.name "Monday"],
           created_at := some ⟨2025, 10, 13, 9, 0⟩,
           updated_at := some ⟨2025, 10, 13, 9, 0⟩ }] := by decide

/-! ## C10: `markNotificationAsRead` -/

/-- C10: `markNotificationAsRead` keeps the history's length and order;
a record whose `id` differs from the given notification id is returned
unchanged, and a record whose `id` matches is returned with `read := true`
and every other field unchanged. -/
theorem markNotificationAsRead_frame (history : List NotificationRecord) (nid : String) :
    (markNotificationAsRead nid history).length = history.length ∧
    (∀ i, ∀ hi : i < history.length,
      ((history[i]).id ≠ nid →
        (markNotificationAsRead nid history)[i]? = some (history[i])) ∧
      ((history[i]).id = nid →
        (markNotificationAsRead nid history)[i]? =
          some { history[i] with read := true })) := by
  refine ⟨by simp [markNotificationAsRead], ?_⟩
  intro i hi
  have hmap : (markNotificationAsRead nid history)[i]? =
      some (if (history[i]).id = nid then { history[i] with read := true }
        else history[i]) := by
    rw [markNotificationAsRead, List.getElem?_map, List.getElem?_eq_getElem hi]
    rfl
  constructor
  · intro hne
    rw [hmap, if_neg hne]
  · intro heq
    rw [hmap, if_pos heq]

/-- Witness for C10's theorem at a concrete input: a two-record history in
which only the first record's id matches. -/
theorem markNotificationAsRead_frame_witness :
    (markNotificationAsRead "a" [⟨"a", "t1", "T1", "B1", .upcoming, 0, false⟩,
        ⟨"b", "t1", "T2", "B2", .start, 5, false⟩])[0]? =
      some ⟨"a", "t1", "T1", "B1", .upcoming, 0, true⟩ ∧
    (markNotificationAsRead "a" [⟨"a", "t1", "T1", "B1", .upcoming, 0, false⟩,
        ⟨"b", "t1", "T2", "B2", .start, 5, false⟩])[1]? =
      some ⟨"b", "t1", "T2", "B2", .start, 5, false⟩ :=
  ⟨((markNotificationAsRead_frame [⟨"a", "t1", "T1", "B1", .upcoming, 0, false⟩,
      ⟨"b", "t1", "T2", "B2", .start, 5, false⟩] "a").2 0 (by decide)).2 rfl,
   ((markNotificationAsRead_frame [⟨"a", "t1", "T1", "B1", .upcoming, 0, false⟩,
      ⟨"b", "t1", "T2", "B2", .start, 5, false⟩] "a").2 1 (by decide)).1 (by decide)⟩

/-! ## C4/C5/C6: the notification scheduler -/

theorem scheduleDayLoop_length (tid : String) (hour minute : Nat) (days : List Nat) :
    (scheduleDayLoop tid hour minute days).length = 3 * days.length := by
  induction days with
  | nil => rfl
  | cons d rest ih =>
    simp only [scheduleDayLoop, List.length_cons, ih]
    omega

theorem scheduleDayLoop_isWeekly (tid : String) (hour minute : Nat) (days : List Nat) :
    ∀ a ∈ scheduleDayLoop tid hour minute days, a.trigger.isWeekly = true := by
  induction days with
  | nil => intro a ha; cases ha
  | cons d rest ih =>
    intro a ha
    simp only [scheduleDayLoop, List.mem_cons] at ha
    rcases ha with rfl | rfl | rfl | ha
    · rfl
    · rfl
    · rfl
    · exact ih a ha

theorem weeklyWeekday_weekly (w h m : Nat) :
    (TriggerSpec.weekly w h m).weeklyWeekday = some w := rfl

theorem scheduleDayLoop_kindCount (tid : String) (hour minute : Nat) (days : List Nat)
    (k : AlertKind) (w : Nat) :
    ((scheduleDayLoop tid hour minute days).filter
      (fun a => a.kind == k && a.trigger.weeklyWeekday == some w)).length =
      days.count w := by
  induction days with
  | nil => cases k <;> rfl
  | cons d rest ih =>
    by_cases hw : d = w <;> cases k <;>
      simp [scheduleDayLoop, List.filter_cons, List.count_cons, weeklyWeekday_weekly,
        hw, ih]

/-- C4: for every task (with a parseable `taskTime`),
`scheduleAllNotificationTasks` registers exactly `3 × |repeatDay|`
platform alerts, each as a recurring weekly trigger, with exactly one
upcoming, one start and one overdue alert per weekday in `repeatDay`
(weekdays counted as the source maps the entries to 1-7 numbers). -/
theorem scheduleAllNotificationTasks_spec (task : Task) (tt : TimeOfDay)
    (alerts : List ScheduledAlert)
    (h : task.taskTime = some tt)
    (ha : scheduleAllNotificationTasks task = some alerts) :
    alerts.length = 3 * task.repeatDay.length ∧
    (∀ a ∈ alerts, a.trigger.isWeekly = true) ∧
    (∀ k : AlertKind, ∀ w : Nat,
      (alerts.filter (fun a => a.kind == k && a.trigger.weeklyWeekday == some w)).length =
        (task.repeatDay.map mapRepeatDayEntry).count w) := by
  have halerts : alerts =
      scheduleDayLoop task.taskId tt.hour tt.minute (task.repeatDay.map mapRepeatDayEntry) := by
    rw [scheduleAllNotificationTasks, h] at ha
    exact (Option.some_inj.mp ha).symm
  subst halerts
  refine ⟨?_, scheduleDayLoop_isWeekly _ _ _ _, fun k w => scheduleDayLoop_kindCount _ _ _ _ k w⟩
  rw [scheduleDayLoop_length, List.length_map]

/-- Witness for C4's theorem at a concrete input: a 09:00 task repeating
on `"Monday"` (name form) and `"3"` (numeric-string form) yields six
weekly alerts. -/
theorem scheduleAllNotificationTasks_spec_witness :
    (scheduleDayLoop "t" 9 0
        ([DayVal.name "Monday", DayVal.name "3"].map mapRepeatDayEntry)).length =
      3 * ([DayVal.name "Monday", DayVal.name "3"] : List DayVal).length :=
  (scheduleAllNotificationTasks_spec
    ⟨"t", "N", "INCOMPLETE", some ⟨9, 0⟩, [.name "Monday", .name "3"], none, none⟩
    ⟨9, 0⟩ _ rfl rfl).1

/-- C5 (amended): in the `src/unnamed/part_003` revision,
`scheduleAllNotificationTasks` on a `COMPLETE` task is a no-op: it
registers no platform alerts, issues no cancellations, and leaves the
scheduler state (tracker and handle counter) unchanged.  (The
`src/utils/taskManagerUtils.ts` revision has no completed-task check —
see the counterexample.) -/
theorem part003_scheduleAll_complete_noop (task : Task) (st : Part003.SchedulerState)
    (h : task.taskStatus = "COMPLETE") :
    Part003.scheduleAllNotificationTasks task st = some ⟨[], [], st⟩ := by
  rw [Part003.scheduleAllNotificationTasks, if_pos h]

/-- Witness for C5's theorem at a concrete input. -/
theorem part003_scheduleAll_complete_noop_witness :
    Part003.scheduleAllNotificationTasks
        ⟨"1", "N", "COMPLETE", some ⟨9, 0⟩, [.name "Monday"], none, none⟩
        ⟨[("1", ⟨[(2, "handle-0")], [], []⟩)], 7⟩ =
      some ⟨[], [], ⟨[("1", ⟨[(2, "handle-0")], [], []⟩)], 7⟩⟩ :=
  part003_scheduleAll_complete_noop
    ⟨"1", "N", "COMPLETE", some ⟨9, 0⟩, [.name "Monday"], none, none⟩
    ⟨[("1", ⟨[(2, "handle-0")], [], []⟩)], 7⟩ rfl

/-- Counterexample to C5 as stated against
`src/utils/taskManagerUtils.ts`: that revision's
`scheduleAllNotificationTasks` has no completed-task check and registers
the full three alerts even for a `COMPLETE` task. -/
theorem scheduleAllNotificationTasks_complete_registers :
    (⟨"1", "N", "COMPLETE", some ⟨9, 0⟩, [.name "Monday"], none, none⟩ : Task).taskStatus =
      "COMPLETE" ∧
    (scheduleAllNotificationTasks
        ⟨"1", "N", "COMPLETE", some ⟨9, 0⟩, [.name "Monday"], none, none⟩).map
      List.length = some 3 := by
  exact ⟨rfl, by decide⟩

/-- C6 (evaluation at the failing input): for a task at 05:00 scheduled on
Monday, the registered upcoming trigger of
`src/utils/taskManagerUtils.ts` fires at 05:57 — the source adds 57
minutes without borrowing from the hour whenever `minute ≤ 3` (and
rewrites the hour to 23 only when `hour = 0`), so the alert fires 57
minutes AFTER the task instead of the lead minutes before (04:57).  The
overdue trigger's carry to 05:03 is correct. -/
theorem scheduleAllNotificationTasks_upcoming_wrong :
    scheduleAllNotificationTasks
        ⟨"1", "N", "INCOMPLETE", some ⟨5, 0⟩, [.name "Monday"], none, none⟩ =
      some [⟨"1", .upcoming, .weekly 2 5 57⟩, ⟨"1", .start, .weekly 2 5 0⟩,
        ⟨"1", .overdue, .weekly 2 5 3⟩] ∧
    (5 * 60 + 57 : Nat) ≠ 5 * 60 - 3 := by
  exact ⟨by decide, by decide⟩

/-! ## C8: history delivery dedup -/

/-- C8 (amended): in the `src/unnamed/part_002` revision, recording the
same `(taskId, type)` payload twice within the 5-minute window appends
exactly one record — the first delivery (when not itself a duplicate of
the prior history) appends, and the second is dropped.  (The
`src/utils/notificationUtils.ts` revision appends unconditionally — see
the counterexample.) -/
theorem part002_saveNotificationToHistory_dedup (history : List NotificationRecord)
    (n1 n2 : NotificationRecord) (now1 now2 : Int)
    (h1 : Part002.isDuplicateOf now1 n1 history = false)
    (hid : n2.taskId = n1.taskId) (hty : n2.type = n1.type)
    (hwin : now2 - 5 * 60 * 1000 < n1.timestamp) :
    Part002.saveNotificationToHistory now1 n1 history = history ++ [n1] ∧
    Part002.saveNotificationToHistory now2 n2
        (Part002.saveNotificationToHistory now1 n1 history) = history ++ [n1] := by
  have hs1 : Part002.saveNotificationToHistory now1 n1 history = history ++ [n1] := by
    rw [Part002.saveNotificationToHistory, h1]
    rfl
  refine ⟨hs1, ?_⟩
  rw [hs1, Part002.saveNotificationToHistory]
  have hd : Part002.isDuplicateOf now2 n2 (history ++ [n1]) = true := by
    rw [Part002.isDuplicateOf]
    apply List.any_eq_true.mpr
    refine ⟨n1, by simp, ?_⟩
    simp only [hid, hty, beq_self_eq_true, Bool.true_and, Bool.and_eq_true, decide_eq_true_eq]
    omega
  rw [hd]
  simp

/-- Witness for C8's theorem at a concrete input: the same record
delivered at t=1000ms and again at t=2000ms produces a single history
entry. -/
theorem part002_saveNotificationToHistory_dedup_witness :
    Part002.saveNotificationToHistory 2000 ⟨"n1", "t1", "T", "B", .start, 1000, false⟩
        (Part002.saveNotificationToHistory 1000
          ⟨"n1", "t1", "T", "B", .start, 1000, false⟩ []) =
      [] ++ [⟨"n1", "t1", "T", "B", .start, 1000, false⟩] :=
  (part002_saveNotificationToHistory_dedup [] ⟨"n1", "t1", "T", "B", .start, 1000, false⟩
    ⟨"n1", "t1", "T", "B", .start, 1000, false⟩ 1000 2000 (by decide) rfl rfl (by decide)).2

/-- Counterexample to C8 as stated against
`src/utils/notificationUtils.ts`: that revision's
`saveNotificationToHistory` has no duplicate check, so delivering the same
payload twice (even at the same instant) appends two history records, not
one. -/
theorem saveNotificationToHistory_no_dedup :
    saveNotificationToHistory ⟨"n1", "t1", "T", "B", .start, 1000, false⟩
        (saveNotificationToHistory ⟨"n1", "t1", "T", "B", .start, 1000, false⟩ []) =
      [⟨"n1", "t1", "T", "B", .start, 1000, false⟩,
        ⟨"n1", "t1", "T", "B", .start, 1000, false⟩] ∧
    ([⟨"n1", "t1", "T", "B", .start, 1000, false⟩,
        ⟨"n1", "t1", "T", "B", .start, 1000, false⟩] : List NotificationRecord).length ≠ 1 := by
  exact ⟨rfl, by decide⟩

end TaskApp
